import Mathlib

/-
  Verification development for the content-syndication pipeline
  (src/newsletter.py and src/pillar_article.py).

  The Python sources are shallowly embedded: external collaborators
  (the generative-content service, the CMS REST sink, the static
  fallback-image fetch) are modelled as oracles passed in as explicit
  arguments, and every function of the source becomes a pure Lean
  function over those oracles.  Exceptions raised by a collaborator are
  classified exactly the way the source classifies them (the substring
  tests for "429" / "404" on the exception text become boolean fields
  of the modelled outcome).  The Python `str` methods the source uses
  (`in`, `split`, `replace`, `strip`, `startswith`) are embedded as
  executable functions over the character list of the string, so that
  concrete runs reduce inside the kernel.
-/

/-- Python substring containment `sub in s` on character lists:
some position of `s` starts with `sub`. -/
def pyInChars (sub : List Char) : List Char → Bool
  | [] => sub.isPrefixOf []
  | c :: rest => sub.isPrefixOf (c :: rest) || pyInChars sub rest

/-- Python `sub in s` for strings; the empty string occurs in every
string. -/
def pyIn (sub s : String) : Bool :=
  pyInChars sub.data s.data

/-- Worker for Python `s.split(sep)` with a non-empty separator:
scans left to right, cutting at each non-overlapping occurrence.
`fuel` bounds the recursion and is fully adequate at `s.length`. -/
def pySplitGo (sep : List Char) : Nat → List Char → List Char → List (List Char)
  | _, [], acc => [acc.reverse]
  | 0, s, acc => [acc.reverse ++ s]
  | fuel + 1, c :: rest, acc =>
    if sep ≠ [] && sep.isPrefixOf (c :: rest) then
      acc.reverse :: pySplitGo sep fuel ((c :: rest).drop sep.length) []
    else
      pySplitGo sep fuel rest (c :: acc)

/-- Python `s.split(sep)` for a non-empty separator `sep`. -/
def pySplit (s sep : String) : List String :=
  (pySplitGo sep.data s.data.length s.data []).map String.mk

/-- Worker for Python `s.replace(pat, rep)` with a non-empty pattern:
replaces non-overlapping occurrences left to right. -/
def pyReplaceGo (pat rep : List Char) : Nat → List Char → List Char
  | _, [] => []
  | 0, s => s
  | fuel + 1, c :: rest =>
    if pat ≠ [] && pat.isPrefixOf (c :: rest) then
      rep ++ pyReplaceGo pat rep fuel ((c :: rest).drop pat.length)
    else
      c :: pyReplaceGo pat rep fuel rest

/-- Python `s.replace(pat, rep)` for a non-empty pattern. -/
def pyReplace (s pat rep : String) : String :=
  String.mk (pyReplaceGo pat.data rep.data s.data.length s.data)

/-- Python `s.strip()`: removes whitespace from both ends. -/
def pyStrip (s : String) : String :=
  String.mk
    (((s.data.dropWhile Char.isWhitespace).reverse.dropWhile
      Char.isWhitespace).reverse)

/-- Python `s.startswith(p)`. -/
def pyStartsWith (s p : String) : Bool :=
  p.data.isPrefixOf s.data

/-- The value a Python function call evaluates to when the source can
return `True`, `False` or fall through returning `None`. -/
inductive PyRet where
  | pyTrue
  | pyFalse
  | pyNone
deriving DecidableEq, Repr

/-- Python truthiness of a `PyRet`: only `True` is truthy. -/
def PyRet.truthy : PyRet → Bool
  | .pyTrue => true
  | _ => false

/-- Python truthiness of an optional numeric id (`if featured_media_id:`):
`None` and `0` are falsy. -/
def optTruthy : Option Nat → Bool
  | some n => n != 0
  | none => false

/-- Outcome of one HTTP request issued through `requests`:
either a response with a status code, or a raised
`requests.exceptions.RequestException`. -/
inductive ReqOutcome where
  | ok (status : Nat)
  | exc
deriving DecidableEq, Repr

namespace Newsletter

/-- Outcome of one `client.models.generate_content` call in
`rewrite_article_and_prompt` (src/newsletter.py lines 95-98):
either a response — `hasText` is the Python truthiness of
`response and response.text` — or a raised exception, classified by
whether `"429" in str(e)` holds. -/
inductive GenOutcome where
  | resp (hasText : Bool) (text : String)
  | exc (has429 : Bool)
deriving DecidableEq, Repr

/-- Result of a run of `rewrite_article_and_prompt`: the returned
`(content, image_prompt)` pair together with the number of
`generate_content` calls issued and the list of `time.sleep`
durations, in order. -/
structure GenRun where
  body : String
  imagePrompt : String
  attempts : Nat
  sleeps : List Nat
deriving DecidableEq, Repr

/-- Sentinel-marker parsing of the model response
(src/newsletter.py lines 100-110): requires both markers, splits on
them, strips code fences from the content part. -/
def parseGen (text : String) : Option (String × String) :=
  if pyIn "---CONTENT---" text && pyIn "---PROMPT---" text then
    let content := pyStrip (((pySplit ((pySplit text
      "---CONTENT---").getD 1 "") "---PROMPT---").getD 0 ""))
    let imagePrompt := pyStrip ((pySplit text "---PROMPT---").getD 1 "")
    let content := pyStrip (pyReplace (pyReplace content "```html" "") "```" "")
    some (content, imagePrompt)
  else
    none

/-- The retry loop of `rewrite_article_and_prompt`
(src/newsletter.py lines 67-119), `for attempt in range(3)` embedded
with descending fuel (`fuel + a = 3` at every call): on a parsed
response return it; on an unparseable or text-less response fall
through to the next attempt; on an exception retry only when the text
contains "429" and `attempt < 3 - 1`, sleeping `(attempt+1)*30`,
otherwise break to the fallback `(summary, title)`. -/
def rewriteGo (oracle : Nat → GenOutcome) (title summary : String) :
    Nat → Nat → GenRun
  | 0, a => { body := summary, imagePrompt := title, attempts := a, sleeps := [] }
  | fuel + 1, a =>
    match oracle a with
    | .resp hasText text =>
      match (if hasText then parseGen (pyStrip text) else none) with
      | some (c, p) =>
        { body := c, imagePrompt := p, attempts := a + 1, sleeps := [] }
      | none => rewriteGo oracle title summary fuel (a + 1)
    | .exc h429 =>
      if h429 && a < 3 - 1 then
        let r := rewriteGo oracle title summary fuel (a + 1)
        { r with sleeps := (a + 1) * 30 :: r.sleeps }
      else
        { body := summary, imagePrompt := title, attempts := a + 1, sleeps := [] }

/-- `rewrite_article_and_prompt` (src/newsletter.py lines 60-122):
with no client configured it returns `(summary, title)` without any
call; otherwise it runs the three-attempt loop, whose exhaustion also
falls back to `(summary, title)`. -/
def rewrite_article_and_prompt (clientOk : Bool) (oracle : Nat → GenOutcome)
    (title summary source_url : String) : GenRun :=
  if clientOk then
    let _ := source_url
    rewriteGo oracle title summary 3 0
  else
    { body := summary, imagePrompt := title, attempts := 0, sleeps := [] }

/-- An attempt of the content-generation loop that does not return a
parsed pair: a response failing the `response and response.text` or
sentinel-marker check, or any exception. -/
def genAttemptFails (o : GenOutcome) : Bool :=
  match o with
  | .resp hasText text => !(hasText && (parseGen (pyStrip text)).isSome)
  | .exc _ => true

/-- Outcome of one `client.models.generate_images` call: either a
response — `images` is the `generated_images` list, each element the
`image.image_bytes` blob (opaque id) — or a raised exception,
classified by the source's `"404" in str(e)` and `"429" in str(e)`
tests. -/
inductive ImgOutcome where
  | resp (images : List Nat)
  | exc (has404 has429 : Bool)
deriving DecidableEq, Repr

/-- One `generate_images` request actually issued: which candidate of
the model list, which retry attempt inside that candidate, and the
exact model identifier string sent. -/
structure ImgCall where
  candidate : Nat
  attempt : Nat
  model : String
deriving DecidableEq, Repr

/-- Result of a run of `generate_image`: the returned bytes (or `None`),
the requests issued in order, and the `time.sleep` durations. -/
structure ImgRun where
  res : Option Nat
  calls : List ImgCall
  sleeps : List Nat
deriving DecidableEq, Repr

/-- `model_name.replace('models/', '')` (src/newsletter.py line 146). -/
def cleanName (nm : String) : String :=
  pyReplace nm "models/" ""

/-- The first image's bytes of a `generate_images` outcome when the
response is truthy (`response and response.generated_images`), else
`None`.  Exceptions also yield `None` (used where the source swallows
them with a bare `except`). -/
def firstImage : ImgOutcome → Option Nat
  | .resp (b :: _) => some b
  | _ => none

/-- How one iteration of the inner `for attempt in range(2)` loop of
`generate_image` ends (src/newsletter.py lines 150-192). -/
inductive AttemptStep where
  | found (b : Nat)
  | nextAttempt
  | nextModel
deriving DecidableEq, Repr

/-- One iteration of the inner retry loop of `generate_image`
(src/newsletter.py lines 150-192).  The oracle is keyed by
(candidate index, attempt index, prefixed?), identifying each physical
request of the control flow.  On a non-empty image list the first
image is returned; an empty list breaks to the next model; on an
exception whose text contains "404" the same identifier is retried
once with the `models/` prefix (its failures swallowed); then an
exception containing "429" retries the same candidate only while
`attempt < 2 - 1`, after sleeping 20. -/
def attemptOnce (oracle : Nat → Nat → Bool → ImgOutcome) (nm : String)
    (ci a : Nat) : AttemptStep × List ImgCall × List Nat :=
  let cn := cleanName nm
  match oracle ci a false with
  | .resp (b :: _) => (.found b, [⟨ci, a, cn⟩], [])
  | .resp [] => (.nextModel, [⟨ci, a, cn⟩], [])
  | .exc h404 h429 =>
    let pfx : List ImgCall × Option Nat :=
      if h404 && !(pyStartsWith cn "models/") then
        ([⟨ci, a, "models/" ++ cn⟩], firstImage (oracle ci a true))
      else ([], none)
    match pfx.2 with
    | some b => (.found b, ⟨ci, a, cn⟩ :: pfx.1, [])
    | none =>
      if h429 && a < 2 - 1 then
        (.nextAttempt, ⟨ci, a, cn⟩ :: pfx.1, [20])
      else
        (.nextModel, ⟨ci, a, cn⟩ :: pfx.1, [])

/-- The `max_retries = 2` attempt loop for one candidate model of
`generate_image` (src/newsletter.py lines 149-192). -/
def tryCandidate (oracle : Nat → Nat → Bool → ImgOutcome) (nm : String)
    (ci : Nat) : Option Nat × List ImgCall × List Nat :=
  match attemptOnce oracle nm ci 0 with
  | (.found b, c0, s0) => (some b, c0, s0)
  | (.nextModel, c0, s0) => (none, c0, s0)
  | (.nextAttempt, c0, s0) =>
    match attemptOnce oracle nm ci 1 with
    | (.found b, c1, s1) => (some b, c0 ++ c1, s0 ++ s1)
    | (_, c1, s1) => (none, c0 ++ c1, s0 ++ s1)

/-- The `for model_name in models_to_try` loop of `generate_image`
(src/newsletter.py lines 143-192): first success wins, a failed
candidate falls through to the next; `k` is the index of the head of
the remaining list. -/
def imgLoop (oracle : Nat → Nat → Bool → ImgOutcome) :
    List String → Nat → ImgRun
  | [], _ => ⟨none, [], []⟩
  | nm :: rest, k =>
    match tryCandidate oracle nm k with
    | (some b, cs, ss) => ⟨some b, cs, ss⟩
    | (none, cs, ss) =>
      let r := imgLoop oracle rest (k + 1)
      ⟨r.res, cs ++ r.calls, ss ++ r.sleeps⟩

/-- `models_to_try` (src/newsletter.py lines 133-139, with
`IMAGE_MODEL = 'imagen-3.0-generate-001'`). -/
def models_to_try : List String :=
  ["imagen-3.0-generate-001", "gemini-2.5-flash-image",
   "gemini-3-pro-image-preview", "imagen-3.0-generate-001",
   "imagen-3.0-generate-002"]

/-- `generate_image` (src/newsletter.py lines 124-195): `None` without
a client; otherwise the candidate-fallback loop over `models_to_try`,
returning `None` when every candidate is exhausted. -/
def generate_image (clientOk : Bool)
    (oracle : Nat → Nat → Bool → ImgOutcome) : ImgRun :=
  if clientOk then imgLoop oracle models_to_try 0 else ⟨none, [], []⟩

/-- An outcome that does not produce an image: an exception, or a
response whose image list is empty. -/
def failedOutcome (o : ImgOutcome) : Bool :=
  (firstImage o).isNone

end Newsletter

/-- A post as the CMS search endpoint reports it: only the rendered
title field is consulted by the source
(`post['title']['rendered'] == title`, src/newsletter.py line 259).
Creating a post with raw title `t` is modelled as storing rendered
title `t` (WordPress's HTML re-encoding of titles is not modelled). -/
structure WPost where
  renderedTitle : String
deriving DecidableEq, Repr

/-- The CMS title search (`requests.get(api_url, params={"search": title})`,
src/newsletter.py line 253), modelled from the collaborator's contract:
the search returns every existing post whose rendered title matches
the query exactly, plus any post whose rendered title contains the
query as a substring. -/
def wpSearch (server : List WPost) (q : String) : List WPost :=
  server.filter (fun p => p.renderedTitle == q || pyIn q p.renderedTitle)

/-- The JSON payload of a create-post request
(src/newsletter.py lines 239-248 and src/pillar_article.py lines
184-192).  `date` carries the timestamp passed to `strftime` (the
format string itself is not modelled); the newsletter edition always
sets it, the pillar edition has no date field.  `featured_media` is
present only when the Python value is truthy. -/
structure PostReq where
  title : String
  content : String
  status : String
  date : Option Int
  categories : List Nat
  featured_media : Option Nat
deriving DecidableEq, Repr

namespace Newsletter

/-- Result of one `post_to_wordpress` call: the Python return value,
whether a create-post request was issued, the payload of that request,
and the CMS post list after the call (extended exactly when the create
returned 201). -/
structure PublishRun where
  ret : PyRet
  createIssued : Bool
  createReq : Option PostReq
  server : List WPost
deriving DecidableEq, Repr

/-- `post_to_wordpress` (src/newsletter.py lines 225-276): missing
credentials return `False`; a failed or non-2xx title search
(`raise_for_status`) is caught and returns `False`; an exact
rendered-title match among the search results returns `True` without
creating; otherwise the create request is issued — `True` on 201,
`False` on any other status or on a raised `RequestException`. -/
def post_to_wordpress (creds : Bool) (server : List WPost)
    (searchOut createOut : ReqOutcome) (title content : String)
    (published_date : Int) (featured_media_id : Option Nat)
    (category_id : Nat) : PublishRun :=
  if !creds then ⟨.pyFalse, false, none, server⟩
  else
    let post_data : PostReq :=
      { title := title, content := content, status := "publish",
        date := some published_date, categories := [category_id],
        featured_media :=
          if optTruthy featured_media_id then featured_media_id else none }
    match searchOut with
    | .exc => ⟨.pyFalse, false, none, server⟩
    | .ok s =>
      if 400 ≤ s then ⟨.pyFalse, false, none, server⟩
      else
        let existing := wpSearch server title
        if existing.any (fun p => p.renderedTitle == title) then
          ⟨.pyTrue, false, none, server⟩
        else
          match createOut with
          | .exc => ⟨.pyFalse, true, some post_data, server⟩
          | .ok cs =>
            if 400 ≤ cs then ⟨.pyFalse, true, some post_data, server⟩
            else if cs == 201 then
              ⟨.pyTrue, true, some post_data, server ++ [⟨title⟩]⟩
            else ⟨.pyFalse, true, some post_data, server⟩

end Newsletter

namespace Pillar

/-- Outcome of the single `client.models.generate_content` call of
`generate_pillar_article_and_prompt` (src/pillar_article.py lines
72-76): a response (`hasText` is the truthiness of
`response and response.text`) or any raised exception. -/
inductive GenOutcome where
  | resp (hasText : Bool) (text : String)
  | exc
deriving DecidableEq, Repr

/-- The SEO call-to-action block appended to every generated pillar
article (src/pillar_article.py line 89). -/
def ctaHtml : String :=
  "\n\n<hr>\n<p><em>Looking to integrate crypto payments directly into your mobile apps or chats? Check out <strong><a href=\"https://smartcloudpay.com\">SmartCloudpay\x27s</a></strong> keyboard crypto payment gateway API for zero chargebacks and instant settlement.</em></p>"

/-- Three-marker parsing of the pillar response
(src/pillar_article.py lines 80-93): requires `---TITLE---`,
`---CONTENT---` and `---PROMPT---`, splits on them, strips code
fences, and appends the CTA block to the content. -/
def parsePillar (text : String) : Option (String × String × String) :=
  if pyIn "---TITLE---" text && pyIn "---CONTENT---" text &&
      pyIn "---PROMPT---" text then
    let title := pyStrip (((pySplit ((pySplit text "---TITLE---").getD 1 "")
      "---CONTENT---").getD 0 ""))
    let content := pyStrip (((pySplit ((pySplit text
      "---CONTENT---").getD 1 "") "---PROMPT---").getD 0 ""))
    let imagePrompt := pyStrip ((pySplit text "---PROMPT---").getD 1 "")
    let content := pyStrip (pyReplace (pyReplace content "```html" "") "```" "")
    some (title, content ++ ctaHtml, imagePrompt)
  else
    none

/-- `generate_pillar_article_and_prompt` (src/pillar_article.py lines
39-98): `(None, None, None)` without a client; a single generation
call, returning the parsed `(title, content, image_prompt)` triple on
success and `(None, None, None)` on any exception, text-less response
or missing marker. -/
def generate_pillar_article_and_prompt (clientOk : Bool)
    (oracle : GenOutcome) : Option (String × String × String) :=
  if !clientOk then none
  else
    match oracle with
    | .exc => none
    | .resp hasText text =>
      if hasText then parsePillar (pyStrip text) else none

/-- One candidate of the pillar edition's `generate_image`
(src/pillar_article.py lines 114-147): a single request per candidate
— no retry loop and no sleep; on an exception whose text contains
"404" the identifier is retried once with the `models/` prefix, its
failures swallowed; everything else falls through to the next model. -/
def tryCandidate (oracle : Nat → Nat → Bool → Newsletter.ImgOutcome)
    (nm : String) (ci : Nat) : Option Nat × List Newsletter.ImgCall :=
  let cn := Newsletter.cleanName nm
  match oracle ci 0 false with
  | .resp (b :: _) => (some b, [⟨ci, 0, cn⟩])
  | .resp [] => (none, [⟨ci, 0, cn⟩])
  | .exc h404 _ =>
    if h404 && !(pyStartsWith cn "models/") then
      (Newsletter.firstImage (oracle ci 0 true),
       [⟨ci, 0, cn⟩, ⟨ci, 0, "models/" ++ cn⟩])
    else (none, [⟨ci, 0, cn⟩])

/-- The candidate-fallback loop of the pillar edition's
`generate_image` (src/pillar_article.py lines 114-150). -/
def imgLoop (oracle : Nat → Nat → Bool → Newsletter.ImgOutcome) :
    List String → Nat → Option Nat × List Newsletter.ImgCall
  | [], _ => (none, [])
  | nm :: rest, k =>
    match tryCandidate oracle nm k with
    | (some b, cs) => (some b, cs)
    | (none, cs) =>
      let r := imgLoop oracle rest (k + 1)
      (r.1, cs ++ r.2)

/-- `models_to_try` (src/pillar_article.py lines 105-110, with
`IMAGE_MODEL = 'gemini-2.0-flash-exp-image-generation'`). -/
def models_to_try : List String :=
  ["gemini-2.0-flash-exp-image-generation", "imagen-3.0-generate-001",
   "imagen-3.0-generate-002", "gemini-2.5-flash-image"]

/-- `generate_image` of the pillar edition (src/pillar_article.py
lines 100-150). -/
def generate_image (clientOk : Bool)
    (oracle : Nat → Nat → Bool → Newsletter.ImgOutcome) :
    Option Nat × List Newsletter.ImgCall :=
  if clientOk then imgLoop oracle models_to_try 0 else (none, [])

/-- `post_to_wordpress` of the pillar edition (src/pillar_article.py
lines 175-204): no duplicate-title search at all; the create request
is always issued when credentials are present; `True` is returned only
on status 201, a raised `RequestException` (which `raise_for_status`
produces for any status ≥ 400) returns `False`, and any other
non-raising status falls off the end of the function, returning
`None`.  The result is the Python return value, whether a create-post
request was issued, and its payload. -/
def post_to_wordpress (creds : Bool) (createOut : ReqOutcome)
    (title content : String) (featured_media_id : Option Nat)
    (category_id : Nat) : PyRet × Bool × Option PostReq :=
  if !creds then (.pyFalse, false, none)
  else
    let post_data : PostReq :=
      { title := title, content := content, status := "publish",
        date := none, categories := [category_id],
        featured_media :=
          if optTruthy featured_media_id then featured_media_id else none }
    match createOut with
    | .exc => (.pyFalse, true, some post_data)
    | .ok s =>
      if 400 ≤ s then (.pyFalse, true, some post_data)
      else if s == 201 then (.pyTrue, true, some post_data)
      else (.pyNone, true, some post_data)

/-- The final confirmation of the pillar workflow
(src/pillar_article.py lines 231-233): the success message is printed
exactly when the publish return value is truthy. -/
def confirmationEmitted (r : PyRet) : Bool :=
  r.truthy

end Pillar

namespace Newsletter

/-- One feed entry as the batch loop consumes it
(src/newsletter.py lines 300-312).  `pubParsed` is the timezone-
normalized result of `parser.parse(entry.published)` (lines 305-307);
`none` means the parse raises, which the per-entry handler catches. -/
structure Entry where
  title : String
  link : String
  summary : String
  pubParsed : Option Int
deriving DecidableEq, Repr

/-- How the generation-and-publication block of one eligible entry
(src/newsletter.py lines 310-349) ends, as the batch loop observes it:
an exception raised somewhere inside it (caught at the per-entry
boundary), or a `post_to_wordpress` attempt that returned `True` or a
falsy value. -/
inductive ProcOutcome where
  | raise
  | publishOk
  | publishFail
deriving DecidableEq, Repr

/-- What the batch loop did with one entry it reached. -/
inductive EntryAction where
  | parseError
  | stale
  | attempted (ok : Bool)
  | raised
deriving DecidableEq, Repr

/-- The per-entry loop of `main` for one feed
(src/newsletter.py lines 300-352).  `oracle fi ei` is the outcome of
the processing block for entry `ei` of feed `fi`; `ei` is the index of
the head entry, `posted`/`fp` the running `posted_count` and
`feed_posted`.  Both caps are checked before each entry
(`if posted_count >= 10 or feed_posted >= 5: break`); the recency
filter is `published_parsed > cutoff`; counters are incremented only
when the publish attempt returned `True`; every exception is caught
and the loop continues.  Returns the final counters and the trace of
entries reached (entries after a `break` do not appear). -/
def runEntries (oracle : Nat → Nat → ProcOutcome) (fi : Nat)
    (cutoff : Int) :
    List Entry → Nat → Nat → Nat → Nat × Nat × List (Nat × EntryAction)
  | [], _, posted, fp => (posted, fp, [])
  | e :: rest, ei, posted, fp =>
    if 10 ≤ posted || 5 ≤ fp then (posted, fp, [])
    else
      match e.pubParsed with
      | none =>
        let r := runEntries oracle fi cutoff rest (ei + 1) posted fp
        (r.1, r.2.1, (ei, .parseError) :: r.2.2)
      | some t =>
        if cutoff < t then
          match oracle fi ei with
          | .raise =>
            let r := runEntries oracle fi cutoff rest (ei + 1) posted fp
            (r.1, r.2.1, (ei, .raised) :: r.2.2)
          | .publishOk =>
            let r := runEntries oracle fi cutoff rest (ei + 1) (posted + 1) (fp + 1)
            (r.1, r.2.1, (ei, .attempted true) :: r.2.2)
          | .publishFail =>
            let r := runEntries oracle fi cutoff rest (ei + 1) posted fp
            (r.1, r.2.1, (ei, .attempted false) :: r.2.2)
        else
          let r := runEntries oracle fi cutoff rest (ei + 1) posted fp
          (r.1, r.2.1, (ei, .stale) :: r.2.2)

/-- The `for feed_url in feeds` loop of `main`
(src/newsletter.py lines 294-352): `posted_count` carries across
feeds, `feed_posted` restarts at 0 for each feed. -/
def runFeeds (oracle : Nat → Nat → ProcOutcome) (cutoff : Int) :
    List (List Entry) → Nat → Nat → Nat × List (Nat × Nat × EntryAction)
  | [], _, posted => (posted, [])
  | es :: rest, fi, posted =>
    let r := runEntries oracle fi cutoff es 0 posted 0
    let r' := runFeeds oracle cutoff rest (fi + 1) r.1
    (r'.1, r.2.2.map (fun x => (fi, x.1, x.2)) ++ r'.2)

/-- The batch part of `main` (src/newsletter.py lines 292-354),
starting from `posted_count = 0`. -/
def main_run (oracle : Nat → Nat → ProcOutcome) (cutoff : Int)
    (feeds : List (List Entry)) : Nat × List (Nat × Nat × EntryAction) :=
  runFeeds oracle cutoff feeds 0 0

/-- An entry is eligible when its parsed timestamp is after the
cutoff (src/newsletter.py line 309). -/
def eligible (cutoff : Int) (e : Entry) : Bool :=
  match e.pubParsed with
  | some t => decide (cutoff < t)
  | none => false

/-- The entry the batch loop reaches at feed `fi`, entry `ei`. -/
def entryAt (feeds : List (List Entry)) (fi ei : Nat) : Option Entry :=
  (feeds.get? fi).bind (fun es => es.get? ei)

/-- Whether a trace action made the loop invoke the content generator,
image generator and publisher: exactly the actions coming out of the
`published_parsed > cutoff` branch. -/
def invokesComponents : EntryAction → Bool
  | .attempted _ => true
  | .raised => true
  | _ => false

/-- Steps 3-4 of the per-entry block (src/newsletter.py lines
326-334): when the generated image bytes are falsy, the generic
fallback URL is fetched and its content used if the status is 200
(a raised exception is swallowed); `fetchContent` is the body of that
response.  Python truthiness of bytes: `None` and empty bytes (modelled
as blob id 0) are falsy. -/
def bytesTruthy : Option Nat → Bool
  | some n => n != 0
  | none => false

def fallbackImageStep (genImg : Option Nat) (fetchOut : ReqOutcome)
    (fetchContent : Nat) : Option Nat :=
  if bytesTruthy genImg then genImg
  else
    match fetchOut with
    | .ok s => if s == 200 then some fetchContent else genImg
    | .exc => genImg

/-- Step 4 (src/newsletter.py lines 337-340): media is uploaded only
when the image bytes are truthy; `uploadRes` is the id
`upload_media_to_wordpress` returns (or `None`). -/
def mediaStep (imageBytes : Option Nat) (uploadRes : Option Nat) :
    Option Nat :=
  if bytesTruthy imageBytes then uploadRes else none

/-- Steps 3-5 of the per-entry block of `main`
(src/newsletter.py lines 322-348): fallback image fetch, media
upload, then `post_to_wordpress` with the resulting media id. -/
def process_entry_publish (genImg : Option Nat) (fetchOut : ReqOutcome)
    (fetchContent : Nat) (uploadRes : Option Nat) (creds : Bool)
    (server : List WPost) (searchOut createOut : ReqOutcome)
    (title content : String) (published_date : Int) (category_id : Nat) :
    PublishRun :=
  let ib := fallbackImageStep genImg fetchOut fetchContent
  let mediaId := mediaStep ib uploadRes
  post_to_wordpress creds server searchOut createOut title content
    published_date mediaId category_id

end Newsletter

/-- The fallback-order property of a newsletter image-generation run
whose first `M` candidates fail and whose candidate `M` (0-based)
succeeds with first image `b`: the run returns `b`, issues requests
only for candidates `0..M`, issues at least one request for each of
them, visits them in non-decreasing list order, and its last request
is candidate `M`'s first (unprefixed) attempt. -/
def FallbackOrderSpecN (r : Newsletter.ImgRun) (M b : Nat) : Prop :=
  r.res = some b ∧
  (∀ c ∈ r.calls, c.candidate ≤ M) ∧
  (∀ i, i ≤ M → ∃ c ∈ r.calls, c.candidate = i) ∧
  List.Pairwise (fun x y => x ≤ y) (r.calls.map (fun c => c.candidate)) ∧
  (∃ c, r.calls.getLast? = some c ∧ c.candidate = M ∧ c.attempt = 0)

/-- The same fallback-order property for the pillar edition's
image-generation run. -/
def FallbackOrderSpecP (r : Option Nat × List Newsletter.ImgCall)
    (M b : Nat) : Prop :=
  r.1 = some b ∧
  (∀ c ∈ r.2, c.candidate ≤ M) ∧
  (∀ i, i ≤ M → ∃ c ∈ r.2, c.candidate = i) ∧
  List.Pairwise (fun x y => x ≤ y) (r.2.map (fun c => c.candidate)) ∧
  (∃ c, r.2.getLast? = some c ∧ c.candidate = M ∧ c.attempt = 0)

/-
  Lemmas and claim theorems.
-/

lemma pairwise_cand_const {l : List Newsletter.ImgCall} {v : Nat}
    (h : ∀ c ∈ l, c.candidate = v) :
    List.Pairwise (fun x y => x ≤ y) (l.map (fun c => c.candidate)) := by
  induction l with
  | nil => exact List.Pairwise.nil
  | cons c cs ih =>
    refine List.Pairwise.cons ?_ (ih (fun d hd => h d (List.mem_cons_of_mem c hd)))
    intro y hy
    rcases List.mem_map.mp hy with ⟨d, hd, rfl⟩
    simp only [h c (List.mem_cons_self c cs), h d (List.mem_cons_of_mem c hd),
      Nat.le_refl]

lemma rewriteGo_all_fail (oracle : Nat → Newsletter.GenOutcome)
    (title summary : String) :
    ∀ fuel a, (∀ i, a ≤ i → i < fuel + a →
        Newsletter.genAttemptFails (oracle i) = true) →
      (Newsletter.rewriteGo oracle title summary fuel a).body = summary ∧
      (Newsletter.rewriteGo oracle title summary fuel a).imagePrompt = title := by
  intro fuel
  induction fuel with
  | zero => intro a _; exact ⟨rfl, rfl⟩
  | succ n ih =>
    intro a h
    have h0 := h a (Nat.le_refl a) (by omega)
    have hrest : ∀ i, a + 1 ≤ i → i < n + (a + 1) →
        Newsletter.genAttemptFails (oracle i) = true := by
      intro i h1 h2; exact h i (by omega) (by omega)
    cases ho : oracle a with
    | resp hasText text =>
      rw [ho] at h0
      have h0' : hasText = false ∨ Newsletter.parseGen (pyStrip text) = none := by
        have hx : (!(hasText && (Newsletter.parseGen (pyStrip text)).isSome)) = true := h0
        simpa using hx
      cases hasText with
      | false =>
        have hstep : Newsletter.rewriteGo oracle title summary (n + 1) a =
            Newsletter.rewriteGo oracle title summary n (a + 1) := by
          simp only [Newsletter.rewriteGo, ho, Bool.false_eq_true, if_false]
        rw [hstep]; exact ih (a + 1) hrest
      | true =>
        have hp : Newsletter.parseGen (pyStrip text) = none := by
          rcases h0' with hf | hp
          · cases hf
          · exact hp
        have hstep : Newsletter.rewriteGo oracle title summary (n + 1) a =
            Newsletter.rewriteGo oracle title summary n (a + 1) := by
          simp only [Newsletter.rewriteGo, ho, if_true, hp]
        rw [hstep]; exact ih (a + 1) hrest
    | exc h429 =>
      have hstep : Newsletter.rewriteGo oracle title summary (n + 1) a =
          (if (h429 && decide (a < 3 - 1)) = true then
            let r := Newsletter.rewriteGo oracle title summary n (a + 1)
            { r with sleeps := (a + 1) * 30 :: r.sleeps }
          else
            { body := summary, imagePrompt := title, attempts := a + 1,
              sleeps := [] }) := by
        simp only [Newsletter.rewriteGo, ho]
      rw [hstep]
      by_cases hb : (h429 && decide (a < 3 - 1)) = true
      · rw [if_pos hb]
        exact ih (a + 1) hrest
      · rw [if_neg hb]
        exact ⟨rfl, rfl⟩

/-- C2: if every content-generation call raises an error classified as
rate-limiting ("429"), `rewrite_article_and_prompt` makes exactly 3
`generate_content` attempts, sleeps `1*30` then `2*30` seconds between
them (the delay grows with the attempt number), and returns the
fallback pair: the original summary as body and the original title as
image prompt. -/
theorem contentGenerator_rate_limited_three_attempts
    (oracle : Nat → Newsletter.GenOutcome) (title summary source_url : String)
    (hall : ∀ a, oracle a = .exc true) :
    Newsletter.rewrite_article_and_prompt true oracle title summary source_url =
      { body := summary, imagePrompt := title, attempts := 3,
        sleeps := [1 * 30, 2 * 30] } := by
  simp [Newsletter.rewrite_article_and_prompt, Newsletter.rewriteGo, hall]

theorem contentGenerator_rate_limited_three_attempts_witness :
    Newsletter.rewrite_article_and_prompt true (fun _ => .exc true) "t" "s" "u" =
      { body := "s", imagePrompt := "t", attempts := 3,
        sleeps := [1 * 30, 2 * 30] } :=
  contentGenerator_rate_limited_three_attempts (fun _ => .exc true) "t" "s" "u"
    (fun _ => rfl)

/-- C6 counterexample: the pillar edition's content generator
(`generate_pillar_article_and_prompt`, cited by the claim) returns the
absent value `(None, None, None)` when the generation client is
unavailable — the claim's "never returns an absent result" fails on
this concrete input. -/
theorem pillar_generator_absent_result :
    Pillar.generate_pillar_article_and_prompt false .exc = none := rfl

/-- C6 amended: the newsletter content generator
(`rewrite_article_and_prompt`) always returns a defined pair and
degrades to (original summary, original title) when the client is
unavailable or every attempt fails; the pillar edition's generator
instead returns the absent triple `(None, None, None)` whenever the
client is unavailable, the call raises, or the response is missing a
sentinel marker. -/
theorem contentGenerator_defined_fallback
    (clientOk : Bool) (oracle : Nat → Newsletter.GenOutcome)
    (title summary source_url : String)
    (h : clientOk = false ∨
      ∀ a, a < 3 → Newsletter.genAttemptFails (oracle a) = true) :
    ((Newsletter.rewrite_article_and_prompt clientOk oracle title summary
        source_url).body = summary ∧
     (Newsletter.rewrite_article_and_prompt clientOk oracle title summary
        source_url).imagePrompt = title) ∧
    (∀ po : Pillar.GenOutcome,
      Pillar.generate_pillar_article_and_prompt false po = none) := by
  refine ⟨?_, fun _ => rfl⟩
  cases clientOk with
  | false => exact ⟨rfl, rfl⟩
  | true =>
    rcases h with h | h
    · cases h
    · have := rewriteGo_all_fail oracle title summary 3 0
        (fun i _ hi => h i (by omega))
      simpa [Newsletter.rewrite_article_and_prompt] using this

theorem contentGenerator_defined_fallback_witness :
    ((Newsletter.rewrite_article_and_prompt true (fun _ => .exc false) "t" "s"
        "u").body = "s" ∧
     (Newsletter.rewrite_article_and_prompt true (fun _ => .exc false) "t" "s"
        "u").imagePrompt = "t") ∧
    (∀ po : Pillar.GenOutcome,
      Pillar.generate_pillar_article_and_prompt false po = none) :=
  contentGenerator_defined_fallback true (fun _ => .exc false) "t" "s" "u"
    (Or.inr (fun _ _ => rfl))

/-- C10: the pillar edition's `post_to_wordpress` reports success
(`True`) only when the create call's outcome is a response with status
exactly 201; a non-raising response with any other status falls off
the end of the function and returns `None` (falsy), and the
workflow's final success confirmation is emitted exactly on the 201
case. -/
theorem pillar_publish_success_only_201
    (title content : String) (m : Option Nat) (cat : Nat)
    (out : ReqOutcome) (s : Nat) (hs : s < 400) (hne : s ≠ 201) :
    ((Pillar.post_to_wordpress true out title content m cat).1 = .pyTrue →
      out = .ok 201) ∧
    (Pillar.post_to_wordpress true (.ok s) title content m cat).1 = .pyNone ∧
    (Pillar.post_to_wordpress true (.ok 201) title content m cat).1 = .pyTrue ∧
    Pillar.confirmationEmitted
      (Pillar.post_to_wordpress true (.ok s) title content m cat).1 = false ∧
    Pillar.confirmationEmitted
      (Pillar.post_to_wordpress true (.ok 201) title content m cat).1 = true := by
  refine ⟨?_, ?_, ?_, ?_, ?_⟩
  · intro hret
    cases out with
    | exc => simp [Pillar.post_to_wordpress] at hret
    | ok s' =>
      by_cases h4 : 400 ≤ s'
      · simp [Pillar.post_to_wordpress, h4] at hret
      · by_cases h201 : s' = 201
        · exact h201 ▸ rfl
        · simp [Pillar.post_to_wordpress, h4, h201] at hret
  · simp [Pillar.post_to_wordpress, Nat.not_le.mpr hs, hne]
  · simp [Pillar.post_to_wordpress]
  · simp [Pillar.post_to_wordpress, Nat.not_le.mpr hs, hne,
      Pillar.confirmationEmitted, PyRet.truthy]
  · simp [Pillar.post_to_wordpress, Pillar.confirmationEmitted, PyRet.truthy]

theorem pillar_publish_success_only_201_witness :
    ((Pillar.post_to_wordpress true (.ok 200) "T" "<p>c</p>" none 2).1 =
        .pyTrue → ReqOutcome.ok 200 = .ok 201) ∧
    (Pillar.post_to_wordpress true (.ok 200) "T" "<p>c</p>" none 2).1 = .pyNone ∧
    (Pillar.post_to_wordpress true (.ok 201) "T" "<p>c</p>" none 2).1 = .pyTrue ∧
    Pillar.confirmationEmitted
      (Pillar.post_to_wordpress true (.ok 200) "T" "<p>c</p>" none 2).1 = false ∧
    Pillar.confirmationEmitted
      (Pillar.post_to_wordpress true (.ok 201) "T" "<p>c</p>" none 2).1 = true :=
  pillar_publish_success_only_201 "T" "<p>c</p>" none 2 (.ok 200) 200
    (by decide) (by decide)

/-- C8 counterexample: the pillar edition's `generate_image` (cited by
the claim) performs no rate-limit retry at all: with every request
raising a "429"-classified error it issues exactly one request per
candidate — four requests in total over the four-model list, no second
attempt for any candidate and no 20-second sleep (the pillar source
contains no sleep call) — while the claim requires 2 attempts per
candidate with a 20-second delay before moving on. -/
theorem pillar_image_no_rate_limit_retry :
    Pillar.generate_image true (fun _ _ _ => .exc false true) =
      (none,
       [⟨0, 0, "gemini-2.0-flash-exp-image-generation"⟩,
        ⟨1, 0, "imagen-3.0-generate-001"⟩,
        ⟨2, 0, "imagen-3.0-generate-002"⟩,
        ⟨3, 0, "gemini-2.5-flash-image"⟩]) := by
  decide

/-- C8 amended: in the newsletter edition, a candidate whose requests
raise rate-limit ("429") errors is attempted exactly twice, with one
20-second sleep between the two attempts, and only then does the loop
move on to the next candidate of the list; the pillar edition issues a
single attempt per candidate with no retry and no delay. -/
theorem newsletter_image_rate_limit_retry
    (oracle : Nat → Nat → Bool → Newsletter.ImgOutcome)
    (nm : String) (rest : List String) (k : Nat)
    (h0 : oracle k 0 false = .exc false true)
    (h1 : oracle k 1 false = .exc false true) :
    Newsletter.tryCandidate oracle nm k =
      (none, [⟨k, 0, Newsletter.cleanName nm⟩, ⟨k, 1, Newsletter.cleanName nm⟩],
       [20]) ∧
    Newsletter.imgLoop oracle (nm :: rest) k =
      ⟨(Newsletter.imgLoop oracle rest (k + 1)).res,
       [⟨k, 0, Newsletter.cleanName nm⟩, ⟨k, 1, Newsletter.cleanName nm⟩] ++
         (Newsletter.imgLoop oracle rest (k + 1)).calls,
       20 :: (Newsletter.imgLoop oracle rest (k + 1)).sleeps⟩ := by
  have hc : Newsletter.tryCandidate oracle nm k =
      (none, [⟨k, 0, Newsletter.cleanName nm⟩, ⟨k, 1, Newsletter.cleanName nm⟩],
       [20]) := by
    simp [Newsletter.tryCandidate, Newsletter.attemptOnce, h0, h1]
  refine ⟨hc, ?_⟩
  simp [Newsletter.imgLoop, hc]

theorem newsletter_image_rate_limit_retry_witness :
    Newsletter.tryCandidate (fun _ _ _ => .exc false true) "m" 0 =
      (none, [⟨0, 0, Newsletter.cleanName "m"⟩, ⟨0, 1, Newsletter.cleanName "m"⟩],
       [20]) ∧
    Newsletter.imgLoop (fun _ _ _ => .exc false true) ["m"] 0 =
      ⟨(Newsletter.imgLoop (fun _ _ _ => .exc false true) [] 1).res,
       [⟨0, 0, Newsletter.cleanName "m"⟩, ⟨0, 1, Newsletter.cleanName "m"⟩] ++
         (Newsletter.imgLoop (fun _ _ _ => .exc false true) [] 1).calls,
       20 :: (Newsletter.imgLoop (fun _ _ _ => .exc false true) [] 1).sleeps⟩ :=
  newsletter_image_rate_limit_retry (fun _ _ _ => .exc false true) "m" [] 0
    rfl rfl

lemma wpSearch_any_true (server : List WPost) (title : String)
    (h : ∃ p ∈ server, p.renderedTitle = title) :
    (wpSearch server title).any
      (fun p => p.renderedTitle == title) = true := by
  rcases h with ⟨p, hp, hpt⟩
  refine List.any_eq_true.mpr ⟨p, ?_, by simp [hpt]⟩
  exact List.mem_filter.mpr ⟨hp, by simp [hpt]⟩

lemma wpSearch_any_false (server : List WPost) (title : String)
    (h : ∀ p ∈ server, p.renderedTitle ≠ title) :
    (wpSearch server title).any
      (fun p => p.renderedTitle == title) = false := by
  refine List.any_eq_false.mpr ?_
  intro p hp
  have hmem : p ∈ server := List.mem_of_mem_filter hp
  simpa using h p hmem

/-- C1 counterexample: in the pillar edition (cited by the claim),
`post_to_wordpress` performs no duplicate-title search and consults no
CMS state at all, so even when the CMS already contains a post whose
rendered title equals the given title "A", publishing ("A", body)
issues a create-post request — and with the CMS answering 201 it
reports success, so publishing the same pair twice creates two posts
rather than one. -/
theorem pillar_publish_creates_despite_existing_title :
    (Pillar.post_to_wordpress true (.ok 201) "A" "<p>b</p>" none 2).2.1 = true ∧
    (Pillar.post_to_wordpress true (.ok 201) "A" "<p>b</p>" none 2).1 =
      .pyTrue := by
  decide

/-- C1 amended: in the newsletter edition only, publishing is
idempotent on the exact rendered title (provided the title search
request itself succeeds with a non-error status): if the CMS already
contains a post whose rendered title equals the given title, the
operation returns success without issuing a create-post request; and
starting from a CMS with no matching title, publishing the same
(title, body) pair twice issues exactly one create-post request — the
second call reports success without creating.  The pillar edition has
no such guard. -/
theorem newsletter_publish_title_idempotent
    (server server2 : List WPost) (title content content2 : String)
    (d d2 : Int) (m m2 : Option Nat) (cat cat2 : Nat) (s1 s2 : Nat)
    (co : ReqOutcome)
    (hs1 : s1 < 400) (hs2 : s2 < 400)
    (hmatch : ∃ p ∈ server, p.renderedTitle = title)
    (hno : ∀ p ∈ server2, p.renderedTitle ≠ title) :
    ((Newsletter.post_to_wordpress true server (.ok s1) co title content d m
        cat).ret = .pyTrue ∧
     (Newsletter.post_to_wordpress true server (.ok s1) co title content d m
        cat).createIssued = false) ∧
    ((Newsletter.post_to_wordpress true server2 (.ok s1) (.ok 201) title
        content d m cat).createIssued = true ∧
     (Newsletter.post_to_wordpress true server2 (.ok s1) (.ok 201) title
        content d m cat).ret = .pyTrue ∧
     (Newsletter.post_to_wordpress true
        (Newsletter.post_to_wordpress true server2 (.ok s1) (.ok 201) title
          content d m cat).server
        (.ok s2) co title content2 d2 m2 cat2).ret = .pyTrue ∧
     (Newsletter.post_to_wordpress true
        (Newsletter.post_to_wordpress true server2 (.ok s1) (.ok 201) title
          content d m cat).server
        (.ok s2) co title content2 d2 m2 cat2).createIssued = false) := by
  have hany1 := wpSearch_any_true server title hmatch
  have hany2 := wpSearch_any_false server2 title hno
  have hfirst : Newsletter.post_to_wordpress true server2 (.ok s1) (.ok 201)
      title content d m cat =
      { ret := .pyTrue, createIssued := true,
        createReq := some
          { title := title, content := content, status := "publish",
            date := some d, categories := [cat],
            featured_media := if optTruthy m then m else none },
        server := server2 ++ [⟨title⟩] } := by
    simp [Newsletter.post_to_wordpress, Nat.not_le.mpr hs1, hany2]
  have hany3 : (wpSearch (server2 ++ [⟨title⟩]) title).any
      (fun p => p.renderedTitle == title) = true :=
    wpSearch_any_true (server2 ++ [⟨title⟩]) title
      ⟨⟨title⟩, by simp, rfl⟩
  refine ⟨⟨?_, ?_⟩, ?_, ?_, ?_, ?_⟩
  · simp [Newsletter.post_to_wordpress, Nat.not_le.mpr hs1, hany1]
  · simp [Newsletter.post_to_wordpress, Nat.not_le.mpr hs1, hany1]
  · rw [hfirst]
  · rw [hfirst]
  · rw [hfirst]
    simp [Newsletter.post_to_wordpress, Nat.not_le.mpr hs2, hany3]
  · rw [hfirst]
    simp [Newsletter.post_to_wordpress, Nat.not_le.mpr hs2, hany3]

theorem newsletter_publish_title_idempotent_witness :
    ((Newsletter.post_to_wordpress true [⟨"A"⟩] (.ok 200) (.ok 201) "A"
        "<p>b</p>" 5 none 2).ret = .pyTrue ∧
     (Newsletter.post_to_wordpress true [⟨"A"⟩] (.ok 200) (.ok 201) "A"
        "<p>b</p>" 5 none 2).createIssued = false) ∧
    ((Newsletter.post_to_wordpress true [] (.ok 200) (.ok 201) "A"
        "<p>b</p>" 5 none 2).createIssued = true ∧
     (Newsletter.post_to_wordpress true [] (.ok 200) (.ok 201) "A"
        "<p>b</p>" 5 none 2).ret = .pyTrue ∧
     (Newsletter.post_to_wordpress true
        (Newsletter.post_to_wordpress true [] (.ok 200) (.ok 201) "A"
          "<p>b</p>" 5 none 2).server
        (.ok 200) (.ok 201) "A" "<p>b</p>" 5 none 2).ret = .pyTrue ∧
     (Newsletter.post_to_wordpress true
        (Newsletter.post_to_wordpress true [] (.ok 200) (.ok 201) "A"
          "<p>b</p>" 5 none 2).server
        (.ok 200) (.ok 201) "A" "<p>b</p>" 5 none 2).createIssued = false) :=
  newsletter_publish_title_idempotent [⟨"A"⟩] [] "A" "<p>b</p>" "<p>b</p>"
    5 5 none none 2 2 200 200 (.ok 201) (by decide) (by decide)
    ⟨⟨"A"⟩, by simp, rfl⟩ (by simp)

/-- C9 counterexample: when the image generator returns absent
(`None`), the per-entry pipeline fetches the static fallback image;
with that fetch answering 200 (bytes blob 7) and the media upload
returning id 3, the create-post request issued for the entry carries
`featured_media = 3` — the claim's "no featured-media reference set"
fails on this concrete input. -/
theorem absent_image_fallback_media_attached :
    ((Newsletter.process_entry_publish none (.ok 200) 7 (some 3) true []
        (.ok 200) (.ok 201) "T" "<p>c</p>" 5 2).createReq.map
      (fun r => r.featured_media)) = some (some 3) ∧
    (Newsletter.process_entry_publish none (.ok 200) 7 (some 3) true []
        (.ok 200) (.ok 201) "T" "<p>c</p>" 5 2).ret = .pyTrue := by
  decide

/-- C9 amended: when the image generator returns absent, the post is
still created (the create-post request is issued and succeeds), but
its featured-media field is absent only when the static-fallback fetch
fails (non-200 or raising) or the subsequent media upload yields no
truthy id; when the fallback fetch answers 200 with non-empty bytes
and the upload returns a truthy media id, the create-post request
carries that fallback media id. -/
theorem absent_image_post_still_created
    (fetchOut : ReqOutcome) (fetchContent : Nat) (uploadRes : Option Nat)
    (server : List WPost) (s : Nat) (title content : String)
    (d : Int) (cat : Nat)
    (hs : s < 400)
    (hno : ∀ p ∈ server, p.renderedTitle ≠ title)
    (hfc : fetchContent ≠ 0) :
    (Newsletter.process_entry_publish none fetchOut fetchContent uploadRes true
        server (.ok s) (.ok 201) title content d cat).ret = .pyTrue ∧
    (Newsletter.process_entry_publish none fetchOut fetchContent uploadRes true
        server (.ok s) (.ok 201) title content d cat).createIssued = true ∧
    (Newsletter.process_entry_publish none fetchOut fetchContent uploadRes true
        server (.ok s) (.ok 201) title content d cat).createReq = some
      { title := title, content := content, status := "publish",
        date := some d, categories := [cat],
        featured_media :=
          if fetchOut = .ok 200 then
            (if optTruthy uploadRes then uploadRes else none)
          else none } := by
  have hany := wpSearch_any_false server title hno
  have hib : Newsletter.fallbackImageStep none fetchOut fetchContent =
      (if fetchOut = .ok 200 then some fetchContent else none) := by
    cases fetchOut with
    | exc => simp [Newsletter.fallbackImageStep, Newsletter.bytesTruthy]
    | ok st =>
      by_cases h200 : st = 200
      · subst h200
        simp [Newsletter.fallbackImageStep, Newsletter.bytesTruthy]
      · simp [Newsletter.fallbackImageStep, Newsletter.bytesTruthy, h200,
          show ReqOutcome.ok st ≠ .ok 200 by simpa using h200]
  have hmedia : Newsletter.mediaStep
      (Newsletter.fallbackImageStep none fetchOut fetchContent) uploadRes =
      (if fetchOut = .ok 200 then uploadRes else none) := by
    rw [hib]
    by_cases h200 : fetchOut = .ok 200
    · simp [h200, Newsletter.mediaStep, Newsletter.bytesTruthy, hfc]
    · simp [h200, Newsletter.mediaStep, Newsletter.bytesTruthy]
  refine ⟨?_, ?_, ?_⟩ <;>
    · simp only [Newsletter.process_entry_publish, hmedia]
      by_cases h200 : fetchOut = .ok 200 <;>
        simp [h200, Newsletter.post_to_wordpress, Nat.not_le.mpr hs, hany,
          optTruthy]

theorem absent_image_post_still_created_witness :
    (Newsletter.process_entry_publish none (.ok 200) 7 (some 3) true []
        (.ok 200) (.ok 201) "T2" "<p>c</p>" 5 2).ret = .pyTrue ∧
    (Newsletter.process_entry_publish none (.ok 200) 7 (some 3) true []
        (.ok 200) (.ok 201) "T2" "<p>c</p>" 5 2).createIssued = true ∧
    (Newsletter.process_entry_publish none (.ok 200) 7 (some 3) true []
        (.ok 200) (.ok 201) "T2" "<p>c</p>" 5 2).createReq = some
      { title := "T2", content := "<p>c</p>", status := "publish",
        date := some 5, categories := [2],
        featured_media :=
          if ReqOutcome.ok 200 = .ok 200 then
            (if optTruthy (some 3) then some 3 else none)
          else none } :=
  absent_image_post_still_created (.ok 200) 7 (some 3) [] 200 "T2" "<p>c</p>"
    5 2 (by decide) (by simp) (by decide)

lemma attemptOnce_fail (oracle : Nat → Nat → Bool → Newsletter.ImgOutcome)
    (nm : String) (ci a : Nat)
    (h : ∀ p, Newsletter.failedOutcome (oracle ci a p) = true) :
    ((Newsletter.attemptOnce oracle nm ci a).1 = .nextAttempt ∨
     (Newsletter.attemptOnce oracle nm ci a).1 = .nextModel) ∧
    (Newsletter.attemptOnce oracle nm ci a).2.1 ≠ [] ∧
    ∀ c ∈ (Newsletter.attemptOnce oracle nm ci a).2.1, c.candidate = ci := by
  have h0 := h false
  have h1 := h true
  cases ho : oracle ci a false with
  | resp imgs =>
    cases imgs with
    | nil => simp [Newsletter.attemptOnce, ho]
    | cons b bs =>
      rw [ho] at h0
      simp [Newsletter.failedOutcome, Newsletter.firstImage] at h0
  | exc h404 h429 =>
    have hpfx : Newsletter.firstImage (oracle ci a true) = none := by
      cases hq : oracle ci a true with
      | resp imgs =>
        cases imgs with
        | nil => rfl
        | cons b bs =>
          rw [hq] at h1
          simp [Newsletter.failedOutcome, Newsletter.firstImage] at h1
      | exc p q => rfl
    by_cases hp : (h404 && !(pyStartsWith (Newsletter.cleanName nm) "models/")) = true
    · simp [Newsletter.attemptOnce, ho, hp, hpfx]
      split_ifs <;> simp
    · simp [Newsletter.attemptOnce, ho, hp, hpfx]
      split_ifs <;> simp

lemma tryCandidate_all_fail (oracle : Nat → Nat → Bool → Newsletter.ImgOutcome)
    (nm : String) (ci : Nat)
    (h : ∀ a p, Newsletter.failedOutcome (oracle ci a p) = true) :
    (Newsletter.tryCandidate oracle nm ci).1 = none ∧
    (Newsletter.tryCandidate oracle nm ci).2.1 ≠ [] ∧
    ∀ c ∈ (Newsletter.tryCandidate oracle nm ci).2.1, c.candidate = ci := by
  obtain ⟨hs0, hne0, hc0⟩ := attemptOnce_fail oracle nm ci 0 (h 0)
  obtain ⟨hs1, hne1, hc1⟩ := attemptOnce_fail oracle nm ci 1 (h 1)
  rcases ha0 : Newsletter.attemptOnce oracle nm ci 0 with ⟨s0, c0, sl0⟩
  rw [ha0] at hs0 hne0 hc0
  rcases ha1 : Newsletter.attemptOnce oracle nm ci 1 with ⟨s1, c1, sl1⟩
  rw [ha1] at hs1 hne1 hc1
  simp only at hs0 hne0 hc0 hs1 hne1 hc1
  rcases hs0 with hs0 | hs0 <;> subst hs0
  · rcases hs1 with hs1 | hs1 <;> subst hs1 <;>
      · refine ⟨?_, ?_, ?_⟩ <;>
          simp_all [Newsletter.tryCandidate, ha0, ha1, List.mem_append]
        rintro c (hc | hc)
        · exact hc0 c hc
        · exact hc1 c hc
  · refine ⟨?_, ?_, ?_⟩ <;> simp_all [Newsletter.tryCandidate, ha0]

lemma imgLoop_order (oracle : Nat → Nat → Bool → Newsletter.ImgOutcome)
    (b : Nat) (bs : List Nat) :
    ∀ (models : List String) (k M : Nat),
      M < models.length →
      (∀ i, i < M → ∀ a p,
        Newsletter.failedOutcome (oracle (k + i) a p) = true) →
      oracle (k + M) 0 false = .resp (b :: bs) →
      (Newsletter.imgLoop oracle models k).res = some b ∧
      (∀ c ∈ (Newsletter.imgLoop oracle models k).calls,
        k ≤ c.candidate ∧ c.candidate ≤ k + M) ∧
      (∀ i, i ≤ M → ∃ c ∈ (Newsletter.imgLoop oracle models k).calls,
        c.candidate = k + i) ∧
      List.Pairwise (fun x y => x ≤ y)
        ((Newsletter.imgLoop oracle models k).calls.map
          (fun c => c.candidate)) ∧
      (∃ c, (Newsletter.imgLoop oracle models k).calls.getLast? = some c ∧
        c.candidate = k + M ∧ c.attempt = 0) := by
  intro models
  induction models with
  | nil => intro k M hM; simp at hM
  | cons nm rest ih =>
    intro k M hM hfail hsucc
    cases M with
    | zero =>
      have hsucc' : oracle k 0 false = .resp (b :: bs) := by
        simpa using hsucc
      have hs : Newsletter.tryCandidate oracle nm k =
          (some b, [⟨k, 0, Newsletter.cleanName nm⟩], []) := by
        simp [Newsletter.tryCandidate, Newsletter.attemptOnce, hsucc']
      have hloop : Newsletter.imgLoop oracle (nm :: rest) k =
          ⟨some b, [⟨k, 0, Newsletter.cleanName nm⟩], []⟩ := by
        simp [Newsletter.imgLoop, hs]
      rw [hloop]
      refine ⟨rfl, ?_, ?_, ?_, ?_⟩
      · intro c hc
        simp at hc
        simp [hc]
      · intro i hi
        have : i = 0 := by omega
        subst this
        exact ⟨⟨k, 0, Newsletter.cleanName nm⟩, by simp⟩
      · simp
      · exact ⟨⟨k, 0, Newsletter.cleanName nm⟩, by simp⟩
    | succ M' =>
      have h0 : ∀ a p, Newsletter.failedOutcome (oracle k a p) = true := by
        intro a p
        have := hfail 0 (by omega) a p
        simpa using this
      obtain ⟨hres0, hne0, hcand0⟩ := tryCandidate_all_fail oracle nm k h0
      rcases htc : Newsletter.tryCandidate oracle nm k with ⟨r0, c0, sl0⟩
      rw [htc] at hres0 hne0 hcand0
      simp only at hres0 hne0 hcand0
      subst hres0
      have hfail' : ∀ i, i < M' → ∀ a p,
          Newsletter.failedOutcome (oracle (k + 1 + i) a p) = true := by
        intro i hi a p
        have := hfail (i + 1) (by omega) a p
        have e : k + (i + 1) = k + 1 + i := by omega
        rw [e] at this
        exact this
      have hsucc' : oracle (k + 1 + M') 0 false = .resp (b :: bs) := by
        have e : k + (M' + 1) = k + 1 + M' := by omega
        rw [e] at hsucc
        exact hsucc
      have hrec := ih (k + 1) M' (by simpa using hM) hfail' hsucc'
      obtain ⟨hr1, hr2, hr3, hr4, hr5⟩ := hrec
      have hloop : Newsletter.imgLoop oracle (nm :: rest) k =
          ⟨(Newsletter.imgLoop oracle rest (k + 1)).res,
           c0 ++ (Newsletter.imgLoop oracle rest (k + 1)).calls,
           sl0 ++ (Newsletter.imgLoop oracle rest (k + 1)).sleeps⟩ := by
        simp [Newsletter.imgLoop, htc]
      rw [hloop]
      have hrne : (Newsletter.imgLoop oracle rest (k + 1)).calls ≠ [] := by
        obtain ⟨c, hc, _⟩ := hr3 0 (by omega)
        exact List.ne_nil_of_mem hc
      refine ⟨hr1, ?_, ?_, ?_, ?_⟩
      · intro c hc
        rcases List.mem_append.mp hc with hc | hc
        · have := hcand0 c hc
          omega
        · have := hr2 c hc
          omega
      · intro i hi
        cases i with
        | zero =>
          obtain ⟨c, hc⟩ := List.exists_mem_of_ne_nil c0 hne0
          exact ⟨c, List.mem_append_left _ hc, by
            have := hcand0 c hc; omega⟩
        | succ j =>
          obtain ⟨c, hc, hcc⟩ := hr3 j (by omega)
          exact ⟨c, List.mem_append_right _ hc, by omega⟩
      · rw [List.map_append]
        refine List.pairwise_append.mpr ⟨pairwise_cand_const hcand0, hr4, ?_⟩
        intro x hx y hy
        rcases List.mem_map.mp hx with ⟨cx, hcx, rfl⟩
        rcases List.mem_map.mp hy with ⟨cy, hcy, rfl⟩
        have h1 := hcand0 cx hcx
        have h2 := (hr2 cy hcy).1
        omega
      · obtain ⟨c, hc1, hc2, hc3⟩ := hr5
        refine ⟨c, ?_, by omega, hc3⟩
        rw [List.getLast?_append_of_ne_nil c0 hrne]
        exact hc1

lemma pillarTryCandidate_all_fail
    (oracle : Nat → Nat → Bool → Newsletter.ImgOutcome) (nm : String) (ci : Nat)
    (h : ∀ a p, Newsletter.failedOutcome (oracle ci a p) = true) :
    (Pillar.tryCandidate oracle nm ci).1 = none ∧
    (Pillar.tryCandidate oracle nm ci).2 ≠ [] ∧
    ∀ c ∈ (Pillar.tryCandidate oracle nm ci).2, c.candidate = ci := by
  have h0 := h 0 false
  have h1 := h 0 true
  cases ho : oracle ci 0 false with
  | resp imgs =>
    cases imgs with
    | nil => simp [Pillar.tryCandidate, ho]
    | cons b bs =>
      rw [ho] at h0
      simp [Newsletter.failedOutcome, Newsletter.firstImage] at h0
  | exc h404 h429 =>
    have hpfx : Newsletter.firstImage (oracle ci 0 true) = none := by
      cases hq : oracle ci 0 true with
      | resp imgs =>
        cases imgs with
        | nil => rfl
        | cons b bs =>
          rw [hq] at h1
          simp [Newsletter.failedOutcome, Newsletter.firstImage] at h1
      | exc p q => rfl
    by_cases hp : (h404 && !(pyStartsWith (Newsletter.cleanName nm) "models/")) = true <;>
      simp [Pillar.tryCandidate, ho, hp, hpfx]

lemma pillarImgLoop_order
    (oracle : Nat → Nat → Bool → Newsletter.ImgOutcome) (b : Nat) (bs : List Nat) :
    ∀ (models : List String) (k M : Nat),
      M < models.length →
      (∀ i, i < M → ∀ a p,
        Newsletter.failedOutcome (oracle (k + i) a p) = true) →
      oracle (k + M) 0 false = .resp (b :: bs) →
      (Pillar.imgLoop oracle models k).1 = some b ∧
      (∀ c ∈ (Pillar.imgLoop oracle models k).2,
        k ≤ c.candidate ∧ c.candidate ≤ k + M) ∧
      (∀ i, i ≤ M → ∃ c ∈ (Pillar.imgLoop oracle models k).2,
        c.candidate = k + i) ∧
      List.Pairwise (fun x y => x ≤ y)
        ((Pillar.imgLoop oracle models k).2.map (fun c => c.candidate)) ∧
      (∃ c, (Pillar.imgLoop oracle models k).2.getLast? = some c ∧
        c.candidate = k + M ∧ c.attempt = 0) := by
  intro models
  induction models with
  | nil => intro k M hM; simp at hM
  | cons nm rest ih =>
    intro k M hM hfail hsucc
    cases M with
    | zero =>
      have hsucc' : oracle k 0 false = .resp (b :: bs) := by
        simpa using hsucc
      have hs : Pillar.tryCandidate oracle nm k =
          (some b, [⟨k, 0, Newsletter.cleanName nm⟩]) := by
        simp [Pillar.tryCandidate, hsucc']
      have hloop : Pillar.imgLoop oracle (nm :: rest) k =
          (some b, [⟨k, 0, Newsletter.cleanName nm⟩]) := by
        simp [Pillar.imgLoop, hs]
      rw [hloop]
      refine ⟨rfl, ?_, ?_, ?_, ?_⟩
      · intro c hc
        simp at hc
        simp [hc]
      · intro i hi
        have : i = 0 := by omega
        subst this
        exact ⟨⟨k, 0, Newsletter.cleanName nm⟩, by simp⟩
      · simp
      · exact ⟨⟨k, 0, Newsletter.cleanName nm⟩, by simp⟩
    | succ M' =>
      have h0 : ∀ a p, Newsletter.failedOutcome (oracle k a p) = true := by
        intro a p
        have := hfail 0 (by omega) a p
        simpa using this
      obtain ⟨hres0, hne0, hcand0⟩ := pillarTryCandidate_all_fail oracle nm k h0
      rcases htc : Pillar.tryCandidate oracle nm k with ⟨r0, c0⟩
      rw [htc] at hres0 hne0 hcand0
      simp only at hres0 hne0 hcand0
      subst hres0
      have hfail' : ∀ i, i < M' → ∀ a p,
          Newsletter.failedOutcome (oracle (k + 1 + i) a p) = true := by
        intro i hi a p
        have := hfail (i + 1) (by omega) a p
        have e : k + (i + 1) = k + 1 + i := by omega
        rw [e] at this
        exact this
      have hsucc' : oracle (k + 1 + M') 0 false = .resp (b :: bs) := by
        have e : k + (M' + 1) = k + 1 + M' := by omega
        rw [e] at hsucc
        exact hsucc
      obtain ⟨hr1, hr2, hr3, hr4, hr5⟩ :=
        ih (k + 1) M' (by simpa using hM) hfail' hsucc'
      have hloop : Pillar.imgLoop oracle (nm :: rest) k =
          ((Pillar.imgLoop oracle rest (k + 1)).1,
           c0 ++ (Pillar.imgLoop oracle rest (k + 1)).2) := by
        simp [Pillar.imgLoop, htc]
      rw [hloop]
      have hrne : (Pillar.imgLoop oracle rest (k + 1)).2 ≠ [] := by
        obtain ⟨c, hc, _⟩ := hr3 0 (by omega)
        exact List.ne_nil_of_mem hc
      refine ⟨hr1, ?_, ?_, ?_, ?_⟩
      · intro c hc
        rcases List.mem_append.mp hc with hc | hc
        · have := hcand0 c hc
          omega
        · have := hr2 c hc
          omega
      · intro i hi
        cases i with
        | zero =>
          obtain ⟨c, hc⟩ := List.exists_mem_of_ne_nil c0 hne0
          exact ⟨c, List.mem_append_left _ hc, by
            have := hcand0 c hc; omega⟩
        | succ j =>
          obtain ⟨c, hc, hcc⟩ := hr3 j (by omega)
          exact ⟨c, List.mem_append_right _ hc, by omega⟩
      · rw [List.map_append]
        refine List.pairwise_append.mpr ⟨pairwise_cand_const hcand0, hr4, ?_⟩
        intro x hx y hy
        rcases List.mem_map.mp hx with ⟨cx, hcx, rfl⟩
        rcases List.mem_map.mp hy with ⟨cy, hcy, rfl⟩
        have h1 := hcand0 cx hcx
        have h2 := (hr2 cy hcy).1
        omega
      · obtain ⟨c, hc1, hc2, hc3⟩ := hr5
        refine ⟨c, ?_, by omega, hc3⟩
        rw [List.getLast?_append_of_ne_nil c0 hrne]
        exact hc1

/-- C3: for every ordered candidate-model list whose first `M`
candidates fail every synthesis attempt while candidate `M+1` (index
`M`, 0-based) returns a non-empty image list on its first request, the
image-generation loop — in both the newsletter and the pillar edition —
issues requests only for candidates `1..M+1`, at least one request for
each of them, in exact list order, returns the first image's bytes of
candidate `M+1` as its result, and its last request is candidate
`M+1`'s first attempt: no further candidate is tried. -/
theorem imageGenerator_fallback_order
    (oracle : Nat → Nat → Bool → Newsletter.ImgOutcome)
    (models : List String) (M b : Nat) (bs : List Nat)
    (hM : M < models.length)
    (hfail : ∀ i, i < M → ∀ a p,
      Newsletter.failedOutcome (oracle i a p) = true)
    (hsucc : oracle M 0 false = .resp (b :: bs)) :
    FallbackOrderSpecN (Newsletter.imgLoop oracle models 0) M b ∧
    FallbackOrderSpecP (Pillar.imgLoop oracle models 0) M b := by
  constructor
  · have h := imgLoop_order oracle b bs models 0 M hM
      (by simpa using hfail) (by simpa using hsucc)
    obtain ⟨h1, h2, h3, h4, h5⟩ := h
    refine ⟨h1, ?_, ?_, h4, ?_⟩
    · intro c hc
      have := h2 c hc
      omega
    · intro i hi
      obtain ⟨c, hc, hcc⟩ := h3 i hi
      exact ⟨c, hc, by omega⟩
    · obtain ⟨c, hc1, hc2, hc3⟩ := h5
      exact ⟨c, hc1, by omega, hc3⟩
  · have h := pillarImgLoop_order oracle b bs models 0 M hM
      (by simpa using hfail) (by simpa using hsucc)
    obtain ⟨h1, h2, h3, h4, h5⟩ := h
    refine ⟨h1, ?_, ?_, h4, ?_⟩
    · intro c hc
      have := h2 c hc
      omega
    · intro i hi
      obtain ⟨c, hc, hcc⟩ := h3 i hi
      exact ⟨c, hc, by omega⟩
    · obtain ⟨c, hc1, hc2, hc3⟩ := h5
      exact ⟨c, hc1, by omega, hc3⟩

theorem imageGenerator_fallback_order_witness :
    FallbackOrderSpecN
      (Newsletter.imgLoop
        (fun ci _ _ => if ci == 0 then .exc false false else .resp [7])
        ["a", "b"] 0) 1 7 ∧
    FallbackOrderSpecP
      (Pillar.imgLoop
        (fun ci _ _ => if ci == 0 then .exc false false else .resp [7])
        ["a", "b"] 0) 1 7 :=
  imageGenerator_fallback_order
    (fun ci _ _ => if ci == 0 then .exc false false else .resp [7])
    ["a", "b"] 1 7 [] (by decide)
    (by
      intro i hi a p
      have : i = 0 := by omega
      subst this
      rfl)
    rfl

lemma runEntries_caps (oracle : Nat → Nat → Newsletter.ProcOutcome) (fi : Nat)
    (cutoff : Int) :
    ∀ (es : List Newsletter.Entry) (ei posted fp : Nat),
      posted ≤ 10 → fp ≤ 5 →
      (Newsletter.runEntries oracle fi cutoff es ei posted fp).1 ≤ 10 ∧
      (Newsletter.runEntries oracle fi cutoff es ei posted fp).2.1 ≤ 5 := by
  intro es
  induction es with
  | nil => intro ei posted fp h1 h2; exact ⟨h1, h2⟩
  | cons e rest ih =>
    intro ei posted fp h1 h2
    simp only [Newsletter.runEntries]
    by_cases hcap : (decide (10 ≤ posted) || decide (5 ≤ fp)) = true
    · rw [if_pos hcap]; exact ⟨h1, h2⟩
    · rw [if_neg hcap]
      have hp : posted < 10 ∧ fp < 5 := by
        simp only [Bool.or_eq_true, decide_eq_true_eq, not_or] at hcap
        push_neg at hcap
        omega
      cases hpub : e.pubParsed with
      | none => exact ⟨(ih (ei + 1) posted fp h1 h2).1, (ih (ei + 1) posted fp h1 h2).2⟩
      | some t =>
        dsimp only
        by_cases ht : cutoff < t
        · rw [if_pos ht]
          cases horc : oracle fi ei with
          | raise => exact ⟨(ih (ei + 1) posted fp h1 h2).1, (ih (ei + 1) posted fp h1 h2).2⟩
          | publishOk =>
            exact ⟨(ih (ei + 1) (posted + 1) (fp + 1) (by omega) (by omega)).1,
              (ih (ei + 1) (posted + 1) (fp + 1) (by omega) (by omega)).2⟩
          | publishFail => exact ⟨(ih (ei + 1) posted fp h1 h2).1, (ih (ei + 1) posted fp h1 h2).2⟩
        · rw [if_neg ht]
          exact ⟨(ih (ei + 1) posted fp h1 h2).1, (ih (ei + 1) posted fp h1 h2).2⟩

lemma runEntries_count (oracle : Nat → Nat → Newsletter.ProcOutcome) (fi : Nat)
    (cutoff : Int) :
    ∀ (es : List Newsletter.Entry) (ei posted fp : Nat),
      (Newsletter.runEntries oracle fi cutoff es ei posted fp).1 =
        posted + (Newsletter.runEntries oracle fi cutoff es ei posted fp).2.2.countP
          (fun x => x.2 == Newsletter.EntryAction.attempted true) ∧
      (Newsletter.runEntries oracle fi cutoff es ei posted fp).2.1 =
        fp + (Newsletter.runEntries oracle fi cutoff es ei posted fp).2.2.countP
          (fun x => x.2 == Newsletter.EntryAction.attempted true) := by
  intro es
  induction es with
  | nil => intro ei posted fp; simp [Newsletter.runEntries]
  | cons e rest ih =>
    intro ei posted fp
    simp only [Newsletter.runEntries]
    by_cases hcap : (decide (10 ≤ posted) || decide (5 ≤ fp)) = true
    · rw [if_pos hcap]; simp
    · rw [if_neg hcap]
      cases hpub : e.pubParsed with
      | none =>
        dsimp only
        obtain ⟨ha, hb⟩ := ih (ei + 1) posted fp
        constructor <;> simp [List.countP_cons, ha, hb]
      | some t =>
        dsimp only
        by_cases ht : cutoff < t
        · rw [if_pos ht]
          cases horc : oracle fi ei with
          | raise =>
            obtain ⟨ha, hb⟩ := ih (ei + 1) posted fp
            constructor <;> simp [List.countP_cons, ha, hb]
          | publishOk =>
            obtain ⟨ha, hb⟩ := ih (ei + 1) (posted + 1) (fp + 1)
            constructor <;> simp [List.countP_cons, ha, hb] <;> omega
          | publishFail =>
            obtain ⟨ha, hb⟩ := ih (ei + 1) posted fp
            constructor <;> simp [List.countP_cons, ha, hb]
        · rw [if_neg ht]
          obtain ⟨ha, hb⟩ := ih (ei + 1) posted fp
          constructor <;> simp [List.countP_cons, ha, hb]

lemma runFeeds_cap (oracle : Nat → Nat → Newsletter.ProcOutcome) (cutoff : Int) :
    ∀ (feeds : List (List Newsletter.Entry)) (fi posted : Nat),
      posted ≤ 10 →
      (Newsletter.runFeeds oracle cutoff feeds fi posted).1 ≤ 10 := by
  intro feeds
  induction feeds with
  | nil => intro fi posted h; exact h
  | cons es rest ih =>
    intro fi posted h
    simp only [Newsletter.runFeeds]
    exact ih (fi + 1) _
      (runEntries_caps oracle fi cutoff es 0 posted 0 h (by omega)).1

lemma runFeeds_count (oracle : Nat → Nat → Newsletter.ProcOutcome) (cutoff : Int) :
    ∀ (feeds : List (List Newsletter.Entry)) (fi posted : Nat),
      (Newsletter.runFeeds oracle cutoff feeds fi posted).1 =
        posted + (Newsletter.runFeeds oracle cutoff feeds fi posted).2.countP
          (fun x => x.2.2 == Newsletter.EntryAction.attempted true) := by
  intro feeds
  induction feeds with
  | nil => intro fi posted; simp [Newsletter.runFeeds]
  | cons es rest ih =>
    intro fi posted
    simp only [Newsletter.runFeeds]
    rw [List.countP_append, List.countP_map]
    have ha := (runEntries_count oracle fi cutoff es 0 posted 0).1
    have hb := ih (fi + 1) (Newsletter.runEntries oracle fi cutoff es 0 posted 0).1
    rw [hb, ha]
    have hcomp : ((fun x : Nat × Nat × Newsletter.EntryAction =>
          x.2.2 == Newsletter.EntryAction.attempted true) ∘
        (fun x : Nat × Newsletter.EntryAction => (fi, x.1, x.2))) =
        (fun x : Nat × Newsletter.EntryAction =>
          x.2 == Newsletter.EntryAction.attempted true) := by
      funext x; rfl
    rw [hcomp]
    omega

lemma runFeeds_tags (oracle : Nat → Nat → Newsletter.ProcOutcome) (cutoff : Int) :
    ∀ (feeds : List (List Newsletter.Entry)) (fi posted : Nat),
      ∀ x ∈ (Newsletter.runFeeds oracle cutoff feeds fi posted).2, fi ≤ x.1 := by
  intro feeds
  induction feeds with
  | nil => intro fi posted x hx; simp [Newsletter.runFeeds] at hx
  | cons es rest ih =>
    intro fi posted x hx
    simp only [Newsletter.runFeeds] at hx
    rcases List.mem_append.mp hx with hx | hx
    · rcases List.mem_map.mp hx with ⟨y, _, rfl⟩
      exact Nat.le_refl fi
    · have := ih (fi + 1) _ x hx
      omega

lemma runFeeds_perfeed (oracle : Nat → Nat → Newsletter.ProcOutcome)
    (cutoff : Int) :
    ∀ (feeds : List (List Newsletter.Entry)) (fi posted g : Nat),
      posted ≤ 10 →
      (Newsletter.runFeeds oracle cutoff feeds fi posted).2.countP
        (fun x => x.1 == g &&
          x.2.2 == Newsletter.EntryAction.attempted true) ≤ 5 := by
  intro feeds
  induction feeds with
  | nil => intro fi posted g h; simp [Newsletter.runFeeds]
  | cons es rest ih =>
    intro fi posted g h
    simp only [Newsletter.runFeeds]
    rw [List.countP_append, List.countP_map]
    have hrest := ih (fi + 1) (Newsletter.runEntries oracle fi cutoff es 0 posted 0).1 g
      (runEntries_caps oracle fi cutoff es 0 posted 0 h (by omega)).1
    by_cases hg : fi = g
    · subst hg
      have hrest0 : (Newsletter.runFeeds oracle cutoff rest (fi + 1)
          (Newsletter.runEntries oracle fi cutoff es 0 posted 0).1).2.countP
          (fun x => x.1 == fi &&
            x.2.2 == Newsletter.EntryAction.attempted true) = 0 := by
        rw [List.countP_eq_zero]
        intro x hx
        have := runFeeds_tags oracle cutoff rest (fi + 1) _ x hx
        simp only [Bool.and_eq_true, beq_iff_eq]
        rintro ⟨h1, -⟩
        omega
      rw [hrest0]
      have hcomp : ((fun x : Nat × Nat × Newsletter.EntryAction =>
            x.1 == fi && x.2.2 == Newsletter.EntryAction.attempted true) ∘
          (fun x : Nat × Newsletter.EntryAction => (fi, x.1, x.2))) =
          (fun x : Nat × Newsletter.EntryAction =>
            x.2 == Newsletter.EntryAction.attempted true) := by
        funext x
        simp
      rw [hcomp]
      have ha := (runEntries_count oracle fi cutoff es 0 posted 0).2
      have hcap := (runEntries_caps oracle fi cutoff es 0 posted 0 h (by omega)).2
      omega
    · have hmap0 : (Newsletter.runEntries oracle fi cutoff es 0 posted
          0).2.2.countP ((fun x : Nat × Nat × Newsletter.EntryAction =>
            x.1 == g && x.2.2 == Newsletter.EntryAction.attempted true) ∘
          (fun x : Nat × Newsletter.EntryAction => (fi, x.1, x.2))) = 0 := by
        rw [List.countP_eq_zero]
        intro x _
        simp only [Function.comp_apply, Bool.and_eq_true, beq_iff_eq]
        rintro ⟨h1, -⟩
        exact hg h1
      rw [hmap0]
      omega

/-- C4 counterexample: 15 eligible entries, all in the first feed
(the second feed empty), with every publish attempt succeeding: only
5 publish attempts are made — the per-feed cap of 5 binds before the
global cap of 10 — where the claim requires exactly 10 attempts.  The
remaining 10 entries of that feed are never reached. -/
theorem fifteen_entries_one_feed_five_attempts :
    (Newsletter.main_run (fun _ _ => .publishOk) 0
      [List.replicate 15 ⟨"t", "l", "s", some 1⟩, []]).1 = 5 ∧
    (Newsletter.main_run (fun _ _ => .publishOk) 0
      [List.replicate 15 ⟨"t", "l", "s", some 1⟩, []]).2.countP
      (fun x => Newsletter.invokesComponents x.2.2) = 5 ∧
    (Newsletter.main_run (fun _ _ => .publishOk) 0
      [List.replicate 15 ⟨"t", "l", "s", some 1⟩, []]).2.length = 5 := by
  decide

/-- C4 amended: throughout every run the total-posted counter never
exceeds 10 and, per feed, the number of confirmed publications never
exceeds 5 (both caps are checked before each entry); the total-posted
counter equals the number of publish attempts confirmed successful —
it is incremented only after a confirmed success, never
optimistically.  Given 15 eligible entries the run makes exactly 10
publish attempts only when the per-feed cap does not bind earlier:
with the 15 entries split 10/5 over the two feeds and every publish
succeeding, exactly 10 attempts are made and the run stops with 5
entries never processed; with all 15 in one feed only 5 attempts are
made. -/
theorem run_caps_and_counting
    (oracle : Nat → Nat → Newsletter.ProcOutcome) (cutoff : Int)
    (feeds : List (List Newsletter.Entry)) (g : Nat) :
    (Newsletter.main_run oracle cutoff feeds).1 ≤ 10 ∧
    (Newsletter.main_run oracle cutoff feeds).2.countP
      (fun x => x.1 == g &&
        x.2.2 == Newsletter.EntryAction.attempted true) ≤ 5 ∧
    (Newsletter.main_run oracle cutoff feeds).1 =
      (Newsletter.main_run oracle cutoff feeds).2.countP
        (fun x => x.2.2 == Newsletter.EntryAction.attempted true) ∧
    ((Newsletter.main_run (fun _ _ => .publishOk) 0
        [List.replicate 10 ⟨"t", "l", "s", some 1⟩,
         List.replicate 5 ⟨"t", "l", "s", some 1⟩]).1 = 10 ∧
     (Newsletter.main_run (fun _ _ => .publishOk) 0
        [List.replicate 10 ⟨"t", "l", "s", some 1⟩,
         List.replicate 5 ⟨"t", "l", "s", some 1⟩]).2.countP
        (fun x => x.2.2 == Newsletter.EntryAction.attempted true) = 10 ∧
     (Newsletter.main_run (fun _ _ => .publishOk) 0
        [List.replicate 10 ⟨"t", "l", "s", some 1⟩,
         List.replicate 5 ⟨"t", "l", "s", some 1⟩]).2.length = 10) := by
  refine ⟨?_, ?_, ?_, by decide⟩
  · exact runFeeds_cap oracle cutoff feeds 0 0 (by omega)
  · exact runFeeds_perfeed oracle cutoff feeds 0 0 g (by omega)
  · have := runFeeds_count oracle cutoff feeds 0 0
    simpa [Newsletter.main_run] using this

/-- C5: a failing entry never aborts the batch: when the caps have
not been reached, an entry whose timestamp parse raises
(`pubParsed = none`) is recorded as a parse error and the loop
continues with the remaining entries and unchanged counters; likewise
an eligible entry whose processing block raises is recorded as raised
and the loop continues with the remaining entries and unchanged
counters — the exception is caught at the per-entry boundary and
never propagates past the batch loop. -/
theorem perEntry_error_containment
    (oracle : Nat → Nat → Newsletter.ProcOutcome) (fi : Nat) (cutoff : Int)
    (e : Newsletter.Entry) (rest : List Newsletter.Entry)
    (ei posted fp : Nat)
    (hposted : posted < 10) (hfp : fp < 5) :
    (e.pubParsed = none →
      Newsletter.runEntries oracle fi cutoff (e :: rest) ei posted fp =
        ((Newsletter.runEntries oracle fi cutoff rest (ei + 1) posted fp).1,
         (Newsletter.runEntries oracle fi cutoff rest (ei + 1) posted fp).2.1,
         (ei, .parseError) ::
           (Newsletter.runEntries oracle fi cutoff rest (ei + 1) posted fp).2.2)) ∧
    (∀ t, e.pubParsed = some t → cutoff < t → oracle fi ei = .raise →
      Newsletter.runEntries oracle fi cutoff (e :: rest) ei posted fp =
        ((Newsletter.runEntries oracle fi cutoff rest (ei + 1) posted fp).1,
         (Newsletter.runEntries oracle fi cutoff rest (ei + 1) posted fp).2.1,
         (ei, .raised) ::
           (Newsletter.runEntries oracle fi cutoff rest (ei + 1) posted fp).2.2)) := by
  have hcap : ¬ (decide (10 ≤ posted) || decide (5 ≤ fp)) = true := by
    simp only [Bool.or_eq_true, decide_eq_true_eq, not_or]
    omega
  constructor
  · intro hpub
    simp only [Newsletter.runEntries, if_neg hcap, hpub]
  · intro t hpub ht horc
    simp only [Newsletter.runEntries, if_neg hcap, hpub]
    rw [if_pos ht, horc]

theorem perEntry_error_containment_witness :
    ((⟨"t", "l", "s", none⟩ : Newsletter.Entry).pubParsed = none →
      Newsletter.runEntries (fun _ _ => .publishOk) 0 0
          [⟨"t", "l", "s", none⟩, ⟨"t2", "l2", "s2", some 1⟩] 0 0 0 =
        ((Newsletter.runEntries (fun _ _ => .publishOk) 0 0
            [⟨"t2", "l2", "s2", some 1⟩] 1 0 0).1,
         (Newsletter.runEntries (fun _ _ => .publishOk) 0 0
            [⟨"t2", "l2", "s2", some 1⟩] 1 0 0).2.1,
         (0, .parseError) ::
           (Newsletter.runEntries (fun _ _ => .publishOk) 0 0
              [⟨"t2", "l2", "s2", some 1⟩] 1 0 0).2.2)) ∧
    (∀ t, (⟨"t", "l", "s", none⟩ : Newsletter.Entry).pubParsed = some t →
      (0 : Int) < t → (fun _ _ => Newsletter.ProcOutcome.publishOk) 0 0 = .raise →
      Newsletter.runEntries (fun _ _ => .publishOk) 0 0
          [⟨"t", "l", "s", none⟩, ⟨"t2", "l2", "s2", some 1⟩] 0 0 0 =
        ((Newsletter.runEntries (fun _ _ => .publishOk) 0 0
            [⟨"t2", "l2", "s2", some 1⟩] 1 0 0).1,
         (Newsletter.runEntries (fun _ _ => .publishOk) 0 0
            [⟨"t2", "l2", "s2", some 1⟩] 1 0 0).2.1,
         (0, .raised) ::
           (Newsletter.runEntries (fun _ _ => .publishOk) 0 0
              [⟨"t2", "l2", "s2", some 1⟩] 1 0 0).2.2)) :=
  perEntry_error_containment (fun _ _ => .publishOk) 0 0
    ⟨"t", "l", "s", none⟩ [⟨"t2", "l2", "s2", some 1⟩] 0 0 0
    (by decide) (by decide)

lemma runEntries_oracle_agree (cutoff : Int)
    (o1 o2 : Nat → Nat → Newsletter.ProcOutcome) (fi : Nat) :
    ∀ (es : List Newsletter.Entry) (ei posted fp : Nat),
      (∀ j e', es.get? j = some e' → Newsletter.eligible cutoff e' = true →
        o1 fi (ei + j) = o2 fi (ei + j)) →
      Newsletter.runEntries o1 fi cutoff es ei posted fp =
        Newsletter.runEntries o2 fi cutoff es ei posted fp := by
  intro es
  induction es with
  | nil => intro ei posted fp _; rfl
  | cons e rest ih =>
    intro ei posted fp h
    have hrest : ∀ j e', rest.get? j = some e' →
        Newsletter.eligible cutoff e' = true →
        o1 fi (ei + 1 + j) = o2 fi (ei + 1 + j) := by
      intro j e' hj he
      have := h (j + 1) e' (by simpa using hj) he
      have eq : ei + (j + 1) = ei + 1 + j := by omega
      rw [eq] at this
      exact this
    simp only [Newsletter.runEntries]
    by_cases hcap : (decide (10 ≤ posted) || decide (5 ≤ fp)) = true
    · rw [if_pos hcap, if_pos hcap]
    · rw [if_neg hcap, if_neg hcap]
      cases hpub : e.pubParsed with
      | none => rw [ih (ei + 1) posted fp hrest]
      | some t =>
        dsimp only
        by_cases ht : cutoff < t
        · rw [if_pos ht, if_pos ht]
          have hel : Newsletter.eligible cutoff e = true := by
            simp [Newsletter.eligible, hpub, ht]
          have hagree : o1 fi ei = o2 fi ei := by
            have := h 0 e (by simp) hel
            simpa using this
          rw [hagree]
          cases horc : o2 fi ei with
          | raise => rw [ih (ei + 1) posted fp hrest]
          | publishOk => rw [ih (ei + 1) (posted + 1) (fp + 1) hrest]
          | publishFail => rw [ih (ei + 1) posted fp hrest]
        · rw [if_neg ht, if_neg ht]
          rw [ih (ei + 1) posted fp hrest]

lemma runFeeds_oracle_agree (cutoff : Int)
    (o1 o2 : Nat → Nat → Newsletter.ProcOutcome) :
    ∀ (feeds : List (List Newsletter.Entry)) (fi posted : Nat),
      (∀ i es j e', feeds.get? i = some es → es.get? j = some e' →
        Newsletter.eligible cutoff e' = true → o1 (fi + i) j = o2 (fi + i) j) →
      Newsletter.runFeeds o1 cutoff feeds fi posted =
        Newsletter.runFeeds o2 cutoff feeds fi posted := by
  intro feeds
  induction feeds with
  | nil => intro fi posted _; rfl
  | cons es rest ih =>
    intro fi posted h
    have hhead : Newsletter.runEntries o1 fi cutoff es 0 posted 0 =
        Newsletter.runEntries o2 fi cutoff es 0 posted 0 := by
      apply runEntries_oracle_agree
      intro j e' hj he
      have := h 0 es j e' (by simp) hj he
      simpa using this
    have hrest : ∀ i es' j e', rest.get? i = some es' →
        es'.get? j = some e' → Newsletter.eligible cutoff e' = true →
        o1 (fi + 1 + i) j = o2 (fi + 1 + i) j := by
      intro i es' j e' hi hj he
      have := h (i + 1) es' j e' (by simpa using hi) hj he
      have eq : fi + (i + 1) = fi + 1 + i := by omega
      rw [eq] at this
      exact this
    simp only [Newsletter.runFeeds]
    rw [hhead, ih (fi + 1) _ hrest]

/-- C7: for every feed entry whose normalized publish timestamp is
not after the cutoff, the batch loop records it as stale with
unchanged counters and moves on without invoking the content
generator, image generator or publisher; consequently the whole run
is unchanged when the per-entry processing oracle is varied at
non-eligible entries: the processing block is consulted only for
entries strictly newer than the cutoff. -/
theorem recencyFilter_never_invokes
    (cutoff : Int) (feeds : List (List Newsletter.Entry)) :
    (∀ (o : Nat → Nat → Newsletter.ProcOutcome) (fi ei posted fp : Nat)
        (e : Newsletter.Entry) (rest : List Newsletter.Entry) (t : Int),
      posted < 10 → fp < 5 → e.pubParsed = some t → ¬ cutoff < t →
      Newsletter.runEntries o fi cutoff (e :: rest) ei posted fp =
        ((Newsletter.runEntries o fi cutoff rest (ei + 1) posted fp).1,
         (Newsletter.runEntries o fi cutoff rest (ei + 1) posted fp).2.1,
         (ei, .stale) ::
           (Newsletter.runEntries o fi cutoff rest (ei + 1) posted fp).2.2) ∧
      Newsletter.invokesComponents .stale = false) ∧
    (∀ o1 o2 : Nat → Nat → Newsletter.ProcOutcome,
      (∀ fi ei e t, Newsletter.entryAt feeds fi ei = some e →
        e.pubParsed = some t → cutoff < t → o1 fi ei = o2 fi ei) →
      Newsletter.main_run o1 cutoff feeds =
        Newsletter.main_run o2 cutoff feeds) := by
  constructor
  · intro o fi ei posted fp e rest t hposted hfp hpub ht
    have hcap : ¬ (decide (10 ≤ posted) || decide (5 ≤ fp)) = true := by
      simp only [Bool.or_eq_true, decide_eq_true_eq, not_or]
      omega
    refine ⟨?_, rfl⟩
    simp only [Newsletter.runEntries, if_neg hcap, hpub]
    rw [if_neg ht]
  · intro o1 o2 hagree
    apply runFeeds_oracle_agree
    intro i es j e' hi hj he
    have hat : Newsletter.entryAt feeds i j = some e' := by
      unfold Newsletter.entryAt
      rw [hi]
      exact hj
    have het : ∃ t, e'.pubParsed = some t ∧ cutoff < t := by
      unfold Newsletter.eligible at he
      cases hp : e'.pubParsed with
      | none => rw [hp] at he; simp at he
      | some t =>
        rw [hp] at he
        simp at he
        exact ⟨t, rfl, he⟩
    obtain ⟨t, hpt, hct⟩ := het
    have := hagree i j e' t hat hpt hct
    simpa using this

theorem recencyFilter_never_invokes_witness :
    (Newsletter.runEntries (fun _ _ => .publishOk) 0 0
        [⟨"t", "l", "s", some 0⟩] 0 0 0 =
      ((Newsletter.runEntries (fun _ _ => .publishOk) 0 0 [] 1 0 0).1,
       (Newsletter.runEntries (fun _ _ => .publishOk) 0 0 [] 1 0 0).2.1,
       (0, .stale) ::
         (Newsletter.runEntries (fun _ _ => .publishOk) 0 0 [] 1 0 0).2.2) ∧
     Newsletter.invokesComponents .stale = false) ∧
    Newsletter.main_run (fun _ _ => .publishOk) 0 [[⟨"t", "l", "s", some 0⟩]] =
      Newsletter.main_run (fun _ _ => .raise) 0 [[⟨"t", "l", "s", some 0⟩]] := by
  have h := recencyFilter_never_invokes 0 [[⟨"t", "l", "s", some 0⟩]]
  refine ⟨?_, ?_⟩
  · exact h.1 (fun _ _ => .publishOk) 0 0 0 0 ⟨"t", "l", "s", some 0⟩ [] 0
      (by decide) (by decide) rfl (by decide)
  · apply h.2 (fun _ _ => .publishOk) (fun _ _ => .raise)
    intro fi ei e t hat hpt hct
    match fi, ei with
    | 0, 0 =>
      have he' := hat
      simp [Newsletter.entryAt] at he'
      subst he'
      simp at hpt
      omega
    | 0, j + 1 => simp [Newsletter.entryAt] at hat
    | i + 1, j => simp [Newsletter.entryAt] at hat
